import Mathlib

/-!
Shallow embedding of the gpiod-core line-configuration/value layer
(`core/src/types.rs`, `core/src/values.rs`, `core/src/utils.rs`,
`core/src/iop/v1.rs`, `core/src/iop/v2.rs`) and proofs about it.

Machine integers (`u64` bits/masks, `u8` bit ids, `u32`/`usize` counters) are
modelled as `Nat` with explicit `% 2 ^ w` truncation where the Rust code can
wrap, and arithmetic overflow of `-=`, `<<` and `>>` (a Rust program error
that panics under debug assertions) is modelled as an explicit `panicked`
error result.
-/

/-! ## Error model -/

/-- Kind of a Rust `std::io::Error` as used by the crate (`utils.rs`). -/
inductive ErrKind where
  | InvalidInput
  | InvalidData
deriving DecidableEq, Repr

/-- Outcome of a fallible operation: an `io::Error` of a given kind and
message, or a Rust panic (debug-assertion semantics for arithmetic
overflow, and slice-index panics). -/
inductive Err where
  | ioError (kind : ErrKind) (msg : String)
  | panicked (msg : String)
deriving DecidableEq, Repr

/-- Embedding of `utils.rs` `invalid_input`. -/
def invalid_input (msg : String) : Err := .ioError .InvalidInput msg

/-- Embedding of `utils.rs` `invalid_data`. -/
def invalid_data (msg : String) : Err := .ioError .InvalidData msg

/-! ## utils.rs helpers -/

/-- Embedding of `utils.rs` `is_set`: `flags & flag == flag`. -/
def is_set (flags flag : Nat) : Bool := flags &&& flag == flag

/-- Embedding of `utils.rs` `check_len`: the Rust code compares the slice
ELEMENT count (`slice.len()`) against `size_of_val(val)`, which is the BYTE
size of the target array.  `byteSize` is that byte size. -/
def check_len (sliceLen byteSize : Nat) : Except Err Unit :=
  if sliceLen ≤ byteSize then .ok () else .error (invalid_input "Too many values")

/-- Embedding of `utils.rs` `check_len_str`: the UTF-8 byte length of the
string must be strictly below the buffer size (one byte is reserved for the
NUL terminator). -/
def check_len_str (s : String) (byteSize : Nat) : Except Err Unit :=
  if s.utf8ByteSize < byteSize then .ok () else .error (invalid_input "String too long")

/-- Embedding of `utils.rs` `safe_set_str`: checks the length and stores the
string (the byte-buffer write is modelled as keeping the string itself). -/
def safe_set_str (s : String) (byteSize : Nat) : Except Err String :=
  match check_len_str s byteSize with
  | .error e => .error e
  | .ok _ => .ok s

/-! ## Logical configuration enums (`types.rs`) -/

/-- Embedding of `types.rs` `Direction`. -/
inductive Direction where
  | Input
  | Output
deriving DecidableEq, Repr, Fintype

/-- Embedding of `types.rs` `Active`. -/
inductive Active where
  | Low
  | High
deriving DecidableEq, Repr, Fintype

/-- Embedding of `types.rs` `EdgeDetect`. -/
inductive EdgeDetect where
  | Disable
  | Rising
  | Falling
  | Both
deriving DecidableEq, Repr, Fintype

/-- Embedding of `types.rs` `Bias`. -/
inductive Bias where
  | Disable
  | PullUp
  | PullDown
deriving DecidableEq, Repr, Fintype

/-- Embedding of `types.rs` `Drive`. -/
inductive Drive where
  | PushPull
  | OpenDrain
  | OpenSource
deriving DecidableEq, Repr, Fintype

/-! ## Bit width helpers -/

/-- Auxiliary scan for the significant width of a `u64` value: `sigWidthAux k n`
is one plus the position of the highest set bit of `n` among bits `k-1 .. 0`,
or `0` when none of those bits is set. -/
def sigWidthAux : Nat → Nat → Nat
  | 0, _ => 0
  | k + 1, n => if n.testBit k then k + 1 else sigWidthAux k n

/-- Significant width of a `u64` value (64 minus `leading_zeros`). -/
def sigWidth (n : Nat) : Nat := sigWidthAux 64 n

/-- Embedding of `u64::leading_zeros` for values below `2 ^ 64`. -/
def clz64 (n : Nat) : Nat := 64 - sigWidth n

/-- Bitwise complement on `u64` (`!x` in Rust). -/
def not64 (n : Nat) : Nat := (2 ^ 64 - 1) ^^^ n

/-! ## `types.rs` `Values` -/

/-- Embedding of `types.rs` `Values`: value bits plus mask of lines to get or
set, both `u64` (modelled as `Nat`, kept below `2 ^ 64` by the operations). -/
structure Values where
  bits : Nat
  mask : Nat
deriving DecidableEq, Repr

/-- Masked bit read used by `Values::get` once the range check has passed
(`bit < 64`, so `1u64 << bit` cannot overflow): mask-clear positions read as
`None`, defined positions as `Some` of the value bit. -/
def Values.getCore (v : Values) (bit : Nat) : Option Bool :=
  let m := 1 <<< bit
  if v.mask &&& m = 0 then none
  else some (v.bits &&& m != 0)

/-- Embedding of `types.rs` `Values::get`.  The source checks `bit > MAX`
(64), not `bit >= MAX`; when `bit == 64` slips through that check the
subsequent `1u64 << bit` overflows its shift amount, which panics under debug
assertions. -/
def Values.get (v : Values) (bit : Nat) : Except Err (Option Bool) :=
  if 64 < bit then .ok none
  else if 64 ≤ bit then .error (.panicked "attempt to shift left with overflow")
  else .ok (v.getCore bit)

/-- Character rendered by `fmt::Display for Values` for one bit position. -/
def Values.charAt (v : Values) (i : Nat) : Char :=
  match v.getCore i with
  | some true => '1'
  | some false => '0'
  | none => 'x'

/-- Embedding of `fmt::Display for Values` (`types.rs`): a `0b` prefix, then
the bits from `(MAX - mask.leading_zeros()).max(1) - 1` down to `0`, each as
`'1'`, `'0'` or `'x'`.  The loop only queries bits below 64, where
`Values::get` equals `Values.getCore`. -/
def Values.display (v : Values) : String :=
  let maxw := Nat.max (64 - clz64 v.mask) 1
  "0b" ++ String.mk (((List.range maxw).reverse).map (fun i => v.charAt i))

/-- UTF-8 byte length of a character sequence: Rust `str::len()`. -/
def utf8Len (cs : List Char) : Nat := cs.foldl (fun n c => n + c.utf8Size) 0

/-- Embedding of `s.strip_prefix("0b").unwrap_or(s)` on the character
sequence. -/
def strip0b : List Char → List Char
  | '0' :: 'b' :: rest => rest
  | l => l

/-- Digit loop of `str::FromStr for Values` (`types.rs`): `i` starts at the
byte length of the (prefix-stripped) input and is decremented once per
character before the character is examined.  The decrement underflow is
modelled as a panic; it is unreachable from `Values.fromStr` because the
character count never exceeds the byte count. -/
def parseValuesGo : List Char → Nat → Values → Except Err Values
  | [], _, r => .ok r
  | c :: rest, i, r =>
    if i = 0 then .error (.panicked "attempt to subtract with overflow")
    else
      let j := i - 1
      if c = '1' then parseValuesGo rest j ⟨r.bits ||| (1 <<< j), r.mask ||| (1 <<< j)⟩
      else if c = '0' then parseValuesGo rest j ⟨r.bits, r.mask ||| (1 <<< j)⟩
      else if c = 'x' then parseValuesGo rest j r
      else .error (invalid_input "Unexpected char in line value")

/-- Embedding of `str::FromStr for Values` (`types.rs`): strip an optional
`0b` prefix, reject byte lengths above 64, then run the digit loop on a
default (all-zero) container. -/
def Values.fromStr (s : String) : Except Err Values :=
  let cs := strip0b s.toList
  let i := utf8Len cs
  if 64 < i then .error (invalid_input "Too many line values")
  else parseValuesGo cs i ⟨0, 0⟩

/-- Loop of `FromIterator<bool> for Values` (`types.rs`): fills bits downward
from position 63, breaking when position 0 has been written; returns the
final counter and container. -/
def fromIterGo : List Bool → Nat → Values → Nat × Values
  | [], i, v => (i, v)
  | b :: rest, i, v =>
    let j := i - 1
    let m := 1 <<< j
    let v : Values := ⟨if b then v.bits ||| m else v.bits, v.mask ||| m⟩
    if j = 0 then (j, v) else fromIterGo rest j v

/-- Embedding of `FromIterator<bool> for Values` (`types.rs`).  After the
loop the container is shifted right by the number of unused positions `i`;
for the empty input `i` is still 64 and `bits >>= 64` overflows its shift
amount, which panics under debug assertions. -/
def Values.fromIterator (l : List Bool) : Except Err Values :=
  let p := fromIterGo l 64 ⟨0, 0⟩
  if 0 < p.1 then
    if 64 ≤ p.1 then .error (.panicked "attempt to shift right with overflow")
    else .ok ⟨p.2.bits >>> p.1, p.2.mask >>> p.1⟩
  else .ok p.2

/-- Loop of `Extend<bool> for Values` (`types.rs`): while `vacant > 0` each
element is shifted into the low end (`u64` wrap-around on the `<< 1`);
`vacant -= 1` runs unconditionally, so once `vacant` reaches 0 the next
element underflows the `u32` counter, which panics under debug assertions. -/
def extendGo : List Bool → Nat → Values → Except Err Values
  | [], _, v => .ok v
  | b :: rest, vacant, v =>
    let v : Values :=
      if 0 < vacant then
        ⟨((v.bits <<< 1) ||| (if b then 1 else 0)) % 2 ^ 64,
         ((v.mask <<< 1) ||| 1) % 2 ^ 64⟩
      else v
    if vacant = 0 then .error (.panicked "attempt to subtract with overflow")
    else extendGo rest (vacant - 1) v

/-- Embedding of `Extend<bool> for Values` (`types.rs`): the vacant counter
starts at `mask.leading_zeros()`. -/
def Values.extend (v : Values) (l : List Bool) : Except Err Values :=
  extendGo l (clz64 v.mask) v

/-- Embedding of the `values_conv!` `From<uN> for Values` impls
(`types.rs`), for `w` in 8, 16, 32, 64: the bits are the integer value
(`n < 2 ^ w`), the mask is `uN::MAX`. -/
def Values.fromUInt (w : Nat) (n : Nat) : Values := ⟨n, 2 ^ w - 1⟩

/-! ## `values.rs` `Masked<u64>` -/

/-- Embedding of `values.rs` `Masked<u64>` (the crate also calls the 64-bit
instance `Values`; it is a distinct type from `types.rs` `Values` with its
own trait impls). -/
structure Masked where
  bits : Nat
  mask : Nat
deriving DecidableEq, Repr

/-- Embedding of `AsValues for Masked<u64>`::`get` (`values.rs`): here the
range check is `id >= 64`, so no shift can overflow. -/
def Masked.get (v : Masked) (id : Nat) : Option Bool :=
  if 64 ≤ id then none
  else
    let m := 1 <<< id
    if v.mask &&& m = 0 then none else some (v.bits &&& m != 0)

/-- Embedding of `AsValuesMut for Masked<u64>`::`set` (`values.rs`):
`Some v` sets the mask bit and writes the value bit; `None` clears both.
Out-of-range ids leave the container unchanged. -/
def Masked.set (v : Masked) (id : Nat) (val : Option Bool) : Masked :=
  if 64 ≤ id then v
  else
    let m := 1 <<< id
    match val with
    | some b =>
      if b then ⟨v.bits ||| m, v.mask ||| m⟩
      else ⟨v.bits &&& not64 m, v.mask ||| m⟩
    | none => ⟨v.bits &&& not64 m, v.mask &&& not64 m⟩

/-- Character rendered by `fmt::Binary for Masked<u64>` for one bit
position. -/
def Masked.charAt (v : Masked) (i : Nat) : Char :=
  match v.get i with
  | some true => '1'
  | some false => '0'
  | none => 'x'

/-- Embedding of `fmt::Binary for Masked<u64>` (`values.rs`) under the
default formatter options used by `to_string()` (no width, no fill, no `#`
alternate flag, hence no `0b` prefix and no padding).  Note the rendered
length is computed from `(self.mask & self.bits).leading_zeros()`, the
highest bit set in BOTH mask and bits. -/
def Masked.display (v : Masked) : String :=
  let len := Nat.max (64 - clz64 (v.mask &&& v.bits)) 1
  String.mk (((List.range len).reverse).map (fun i => v.charAt i))

/-- Digit loop of `str::FromStr for Masked<u64>` (`values.rs`); same shape as
the `types.rs` loop but the counter is a `u8`, whose decrement underflow
(reachable only via the `as BitId` byte-length wrap-around) is modelled as a
panic. -/
def parseMaskedGo : List Char → Nat → Masked → Except Err Masked
  | [], _, r => .ok r
  | c :: rest, i, r =>
    if i = 0 then .error (.panicked "attempt to subtract with overflow")
    else
      let j := i - 1
      if c = '1' then parseMaskedGo rest j ⟨r.bits ||| (1 <<< j), r.mask ||| (1 <<< j)⟩
      else if c = '0' then parseMaskedGo rest j ⟨r.bits, r.mask ||| (1 <<< j)⟩
      else if c = 'x' then parseMaskedGo rest j r
      else .error (invalid_input "Unexpected char in line value")

/-- Embedding of `str::FromStr for Masked<u64>` (`values.rs`): as for
`types.rs` `Values` except that the byte length is cast to the `u8` `BitId`
(`% 256`) before the 64 check. -/
def Masked.fromStr (s : String) : Except Err Masked :=
  let cs := strip0b s.toList
  let i := utf8Len cs % 256
  if 64 < i then .error (invalid_input "Too many line values")
  else parseMaskedGo cs i ⟨0, 0⟩

/-! ## `types.rs` `LineMap` -/

/-- Embedding of `types.rs` `LineMap`: a lookup table from kernel line offset
to request-local bit position (entries are `BitId`, a `u8`). -/
structure LineMap where
  map : List Nat
deriving DecidableEq, Repr

/-- The `LineMap::NOT_LINE` sentinel: `Values::MAX` (64) cast to `BitId`. -/
def LineMap.NOT_LINE : Nat := 64

/-- Write loop of `LineMap::new`: `for i in 0..lines.len() { map[lines[i]] = i as u8 }`
(the `as _` cast to the `u8` `BitId` is `% 256`).  The index is always in
range by construction, matching the infallible Rust indexing. -/
def writeAll (lines : List Nat) (m : List Nat) : List Nat → List Nat
  | [] => m
  | i :: rest => writeAll lines (m.set (lines.getD i 0) (i % 256)) rest

/-- Embedding of `LineMap::new` (`types.rs`): a table of size
`lines.iter().max().unwrap_or(0) + 1`, all entries `NOT_LINE`, then each
offset is mapped to its position in the caller-supplied order. -/
def LineMap.new (lines : List Nat) : LineMap :=
  let maxOff := lines.foldl Nat.max 0
  ⟨writeAll lines (List.replicate (maxOff + 1) LineMap.NOT_LINE) (List.range lines.length)⟩

/-- Embedding of `LineMap::get` (`types.rs`): out-of-table offsets and
entries equal to `NOT_LINE` are an `InvalidData` error. -/
def LineMap.get (lm : LineMap) (line : Nat) : Except Err Nat :=
  if h : line < lm.map.length then
    if lm.map[line] ≠ LineMap.NOT_LINE then .ok (lm.map[line])
    else .error (invalid_data "Unknown line offset")
  else .error (invalid_data "Unknown line offset")

/-! ## Generation-2 ABI (`iop/v2.rs`)

Modelled from the spec: the `raw::v2` module (flag constants and the binary
`GpioLineRequest` / `GpioLineInfo` struct layouts) is not under `src/`; the
constants below are the kernel v2 ABI bits per the spec's external-interface
table, and the struct capacities are the spec's fixed sizes (64 lines of
`u32` offsets, 32-byte NUL-terminated consumer buffer). -/

/-- Modelled from the spec: kernel v2 line flag, line in use by the kernel. -/
def GPIO_LINE_FLAG_USED : Nat := 1

/-- Modelled from the spec: kernel v2 line flag, active-low polarity. -/
def GPIO_LINE_FLAG_ACTIVE_LOW : Nat := 2

/-- Modelled from the spec: kernel v2 line flag, input direction. -/
def GPIO_LINE_FLAG_INPUT : Nat := 4

/-- Modelled from the spec: kernel v2 line flag, output direction. -/
def GPIO_LINE_FLAG_OUTPUT : Nat := 8

/-- Modelled from the spec: kernel v2 line flag, rising-edge detection. -/
def GPIO_LINE_FLAG_EDGE_RISING : Nat := 16

/-- Modelled from the spec: kernel v2 line flag, falling-edge detection. -/
def GPIO_LINE_FLAG_EDGE_FALLING : Nat := 32

/-- Modelled from the spec: kernel v2 line flag, both edges (rising or
falling). -/
def GPIO_LINE_FLAG_EDGE_BOTH : Nat := 48

/-- Modelled from the spec: kernel v2 line flag, open-drain drive. -/
def GPIO_LINE_FLAG_OPEN_DRAIN : Nat := 64

/-- Modelled from the spec: kernel v2 line flag, open-source drive. -/
def GPIO_LINE_FLAG_OPEN_SOURCE : Nat := 128

/-- Modelled from the spec: kernel v2 line flag, pull-up bias. -/
def GPIO_LINE_FLAG_BIAS_PULL_UP : Nat := 256

/-- Modelled from the spec: kernel v2 line flag, pull-down bias. -/
def GPIO_LINE_FLAG_BIAS_PULL_DOWN : Nat := 512

/-- Modelled from the spec: kernel v2 line flag, bias disabled. -/
def GPIO_LINE_FLAG_BIAS_DISABLED : Nat := 1024

/-- Decoded line-information record (the flag-derived fields of
`types.rs` `LineInfo`; the `name`/`consumer` strings are decoded separately
by `safe_get_str` and are not part of the flag word). -/
structure DecodedInfo where
  direction : Direction
  active : Active
  edge : EdgeDetect
  used : Bool
  bias : Bias
  drive : Drive
deriving DecidableEq, Repr

/-- Embedding of the flag-word decoding of `GpioLineInfo::as_info`
(`iop/v2.rs`). -/
def as_info_v2 (flags : Nat) : DecodedInfo :=
  { direction := if is_set flags GPIO_LINE_FLAG_OUTPUT then .Output else .Input
    active := if is_set flags GPIO_LINE_FLAG_ACTIVE_LOW then .Low else .High
    edge :=
      match is_set flags GPIO_LINE_FLAG_EDGE_RISING,
            is_set flags GPIO_LINE_FLAG_EDGE_FALLING with
      | true, false => .Rising
      | false, true => .Falling
      | true, true => .Both
      | false, false => .Disable
    used := is_set flags GPIO_LINE_FLAG_USED
    bias :=
      match is_set flags GPIO_LINE_FLAG_BIAS_PULL_UP,
            is_set flags GPIO_LINE_FLAG_BIAS_PULL_DOWN with
      | true, false => .PullUp
      | false, true => .PullDown
      | _, _ => .Disable
    drive :=
      match is_set flags GPIO_LINE_FLAG_OPEN_DRAIN,
            is_set flags GPIO_LINE_FLAG_OPEN_SOURCE with
      | true, false => .OpenDrain
      | false, true => .OpenSource
      | _, _ => .PushPull }

/-- Embedding of `raw::v2::GpioLineRequest` with the fields the encoder
fills: the 64-entry offsets array, line count, config flags, the optional
output-values attribute `(mask, bits)` (attribute id
`GPIO_LINE_ATTR_ID_OUTPUT_VALUES`), and the consumer label. -/
structure GpioLineRequest where
  num_lines : Nat
  offsets : List Nat
  flags : Nat
  output_values : Option (Nat × Nat)
  consumer : String
deriving DecidableEq, Repr

/-- Embedding of `request.offsets[..lines.len()].copy_from_slice(lines)`
into the 64-entry `u32` array: Rust panics on the slicing when more than 64
lines reached this point (which `check_len`'s byte-size comparison allows for
65 to 256 lines). -/
def copy_into_offsets64 (lines : List Nat) : Except Err (List Nat) :=
  if lines.length ≤ 64 then .ok (lines ++ List.replicate (64 - lines.length) 0)
  else .error (.panicked "range end index out of range for slice of length 64")

/-- Flag composition of `GpioLineRequest::new` (`iop/v2.rs`), in source
order: direction (input XOR output bit — the source cites the kernel's
rejection of mixed input/output flags), active-low, edge (input only, `Both`
sets both edge bits), bias (unconditional), drive (output only, push-pull
sets no bit). -/
def requestFlagsV2 (direction : Direction) (active : Active) (edge : Option EdgeDetect)
    (bias : Option Bias) (drive : Option Drive) : Nat :=
  let flags : Nat :=
    match direction with
    | .Input => GPIO_LINE_FLAG_INPUT
    | .Output => GPIO_LINE_FLAG_OUTPUT
  let flags := if active = .Low then flags ||| GPIO_LINE_FLAG_ACTIVE_LOW else flags
  let flags :=
    match direction with
    | .Input =>
      match edge with
      | some .Rising => flags ||| GPIO_LINE_FLAG_EDGE_RISING
      | some .Falling => flags ||| GPIO_LINE_FLAG_EDGE_FALLING
      | some .Both => flags ||| GPIO_LINE_FLAG_EDGE_BOTH
      | some .Disable => flags
      | none => flags
    | .Output => flags
  let flags :=
    match bias with
    | some .PullUp => flags ||| GPIO_LINE_FLAG_BIAS_PULL_UP
    | some .PullDown => flags ||| GPIO_LINE_FLAG_BIAS_PULL_DOWN
    | some .Disable => flags ||| GPIO_LINE_FLAG_BIAS_DISABLED
    | none => flags
  let flags :=
    match direction with
    | .Output =>
      match drive with
      | some .OpenDrain => flags ||| GPIO_LINE_FLAG_OPEN_DRAIN
      | some .OpenSource => flags ||| GPIO_LINE_FLAG_OPEN_SOURCE
      | some .PushPull => flags
      | none => flags
    | .Input => flags
  flags

/-- Embedding of `GpioLineRequest::new` (`iop/v2.rs`), in source order:
`check_len` against the byte size of the 64-entry `u32` offsets array
(`64 * 4`), copy of the offsets, flag composition, optional output-values
attribute (output direction only), and `safe_set_str` of the consumer into
its 32-byte buffer. -/
def GpioLineRequest.new (lines : List Nat) (direction : Direction) (active : Active)
    (edge : Option EdgeDetect) (bias : Option Bias) (drive : Option Drive)
    (values : Option Values) (consumer : String) : Except Err GpioLineRequest :=
  match check_len lines.length (64 * 4) with
  | .error e => .error e
  | .ok _ =>
    match copy_into_offsets64 lines with
    | .error e => .error e
    | .ok offsets =>
      let flags := requestFlagsV2 direction active edge bias drive
      let output_values :=
        if direction = .Output then values.map (fun v => (v.mask, v.bits)) else none
      match safe_set_str consumer 32 with
      | .error e => .error e
      | .ok c =>
        .ok { num_lines := lines.length, offsets := offsets, flags := flags,
              output_values := output_values, consumer := c }

/-! ## Generation-1 ABI (`iop/v1.rs`)

Modelled from the spec: the `raw::v1` module is not under `src/`; the
constants are the kernel v1 ABI bits per the spec's external-interface table,
with the same fixed capacities (64 `u32` line offsets, 32-byte consumer
label). -/

/-- Modelled from the spec: kernel v1 line-info flag, used by the kernel. -/
def GPIOLINE_FLAG_KERNEL : Nat := 1

/-- Modelled from the spec: kernel v1 line-info flag, output direction. -/
def GPIOLINE_FLAG_IS_OUT : Nat := 2

/-- Modelled from the spec: kernel v1 line-info flag, active-low polarity. -/
def GPIOLINE_FLAG_ACTIVE_LOW : Nat := 4

/-- Modelled from the spec: kernel v1 line-info flag, open-drain drive. -/
def GPIOLINE_FLAG_OPEN_DRAIN : Nat := 8

/-- Modelled from the spec: kernel v1 line-info flag, open-source drive. -/
def GPIOLINE_FLAG_OPEN_SOURCE : Nat := 16

/-- Modelled from the spec: kernel v1 line-info flag, pull-up bias. -/
def GPIOLINE_FLAG_BIAS_PULL_UP : Nat := 32

/-- Modelled from the spec: kernel v1 line-info flag, pull-down bias. -/
def GPIOLINE_FLAG_BIAS_PULL_DOWN : Nat := 64

/-- Modelled from the spec: kernel v1 handle-request flag, input. -/
def GPIOHANDLE_REQUEST_INPUT : Nat := 1

/-- Modelled from the spec: kernel v1 handle-request flag, output. -/
def GPIOHANDLE_REQUEST_OUTPUT : Nat := 2

/-- Modelled from the spec: kernel v1 handle-request flag, active-low. -/
def GPIOHANDLE_REQUEST_ACTIVE_LOW : Nat := 4

/-- Modelled from the spec: kernel v1 handle-request flag, open-drain. -/
def GPIOHANDLE_REQUEST_OPEN_DRAIN : Nat := 8

/-- Modelled from the spec: kernel v1 handle-request flag, open-source. -/
def GPIOHANDLE_REQUEST_OPEN_SOURCE : Nat := 16

/-- Modelled from the spec: kernel v1 handle-request flag, pull-up bias. -/
def GPIOHANDLE_REQUEST_BIAS_PULL_UP : Nat := 32

/-- Modelled from the spec: kernel v1 handle-request flag, pull-down bias. -/
def GPIOHANDLE_REQUEST_BIAS_PULL_DOWN : Nat := 64

/-- Modelled from the spec: kernel v1 handle-request flag, bias disabled. -/
def GPIOHANDLE_REQUEST_BIAS_DISABLE : Nat := 128

/-- Embedding of the flag-word decoding of `GpioLineInfo::as_info`
(`iop/v1.rs`); generation 1 has no edge bits, so `edge` is always
`Disable`. -/
def as_info_v1 (flags : Nat) : DecodedInfo :=
  { direction := if is_set flags GPIOLINE_FLAG_IS_OUT then .Output else .Input
    active := if is_set flags GPIOLINE_FLAG_ACTIVE_LOW then .Low else .High
    edge := .Disable
    used := is_set flags GPIOLINE_FLAG_KERNEL
    bias :=
      match is_set flags GPIOLINE_FLAG_BIAS_PULL_UP,
            is_set flags GPIOLINE_FLAG_BIAS_PULL_DOWN with
      | true, false => .PullUp
      | false, true => .PullDown
      | _, _ => .Disable
    drive :=
      match is_set flags GPIOLINE_FLAG_OPEN_DRAIN,
            is_set flags GPIOLINE_FLAG_OPEN_SOURCE with
      | true, false => .OpenDrain
      | false, true => .OpenSource
      | _, _ => .PushPull }

/-- Embedding of `raw::v1::GpioHandleRequest` with the fields the encoder
fills. -/
structure GpioHandleRequest where
  lines : Nat
  line_offsets : List Nat
  flags : Nat
  consumer_label : String
deriving DecidableEq, Repr

/-- Flag composition of `GpioHandleRequest::new` (`iop/v1.rs`), in source
order: direction (mutually exclusive input/output bits), active-low, bias
(unconditional), drive (output only, push-pull sets no bit).  Generation 1
cannot encode edge detection in the request. -/
def requestFlagsV1 (direction : Direction) (active : Active)
    (bias : Option Bias) (drive : Option Drive) : Nat :=
  let flags : Nat :=
    match direction with
    | .Input => GPIOHANDLE_REQUEST_INPUT
    | .Output => GPIOHANDLE_REQUEST_OUTPUT
  let flags := if active = .Low then flags ||| GPIOHANDLE_REQUEST_ACTIVE_LOW else flags
  let flags :=
    match bias with
    | some .PullUp => flags ||| GPIOHANDLE_REQUEST_BIAS_PULL_UP
    | some .PullDown => flags ||| GPIOHANDLE_REQUEST_BIAS_PULL_DOWN
    | some .Disable => flags ||| GPIOHANDLE_REQUEST_BIAS_DISABLE
    | none => flags
  let flags :=
    match direction with
    | .Output =>
      match drive with
      | some .OpenDrain => flags ||| GPIOHANDLE_REQUEST_OPEN_DRAIN
      | some .OpenSource => flags ||| GPIOHANDLE_REQUEST_OPEN_SOURCE
      | some .PushPull => flags
      | none => flags
    | .Input => flags
  flags

/-- Embedding of `GpioHandleRequest::new` (`iop/v1.rs`), in source order:
`check_len` against the byte size of the 64-entry `u32` `line_offsets` array,
copy of the offsets, flag composition, and `safe_set_str` of the consumer
label into its 32-byte buffer. -/
def GpioHandleRequest.new (lns : List Nat) (direction : Direction) (active : Active)
    (bias : Option Bias) (drive : Option Drive) (consumer : String) :
    Except Err GpioHandleRequest :=
  match check_len lns.length (64 * 4) with
  | .error e => .error e
  | .ok _ =>
    match copy_into_offsets64 lns with
    | .error e => .error e
    | .ok offsets =>
      let flags := requestFlagsV1 direction active bias drive
      match safe_set_str consumer 32 with
      | .error e => .error e
      | .ok c =>
        .ok { lines := lns.length, line_offsets := offsets, flags := flags,
              consumer_label := c }

/-! ## Sample values used by witness theorems -/

/-- The concrete generation-2 request produced for a single input line 1 with
all-default configuration. -/
def sampleReqV2In : GpioLineRequest :=
  { num_lines := 1, offsets := 1 :: List.replicate 63 0,
    flags := GPIO_LINE_FLAG_INPUT, output_values := none, consumer := "" }

/-- The concrete generation-1 request produced for a single output line 2
with all-default configuration. -/
def sampleReqV1Out : GpioHandleRequest :=
  { lines := 1, line_offsets := 2 :: List.replicate 63 0,
    flags := GPIOHANDLE_REQUEST_OUTPUT, consumer_label := "" }

/-- The concrete generation-2 request produced for a single output line 2
with push-pull drive and no initial values. -/
def sampleReqV2Out : GpioLineRequest :=
  { num_lines := 1, offsets := 2 :: List.replicate 63 0,
    flags := GPIO_LINE_FLAG_OUTPUT, output_values := none, consumer := "" }

set_option maxRecDepth 4000

/-! ## Bitwise helper lemmas -/

theorem testBit_one_shiftLeft (k j : Nat) : (1 <<< k).testBit j = decide (j = k) := by
  rw [Nat.one_shiftLeft, Nat.testBit_two_pow]
  simp [eq_comm]

theorem and_one_shiftLeft_eq_zero {x k : Nat} :
    x &&& (1 <<< k) = 0 ↔ x.testBit k = false := by
  constructor
  · intro h
    have := congrArg (fun n => n.testBit k) h
    simpa [Nat.testBit_and, testBit_one_shiftLeft] using this
  · intro h
    apply Nat.eq_of_testBit_eq
    intro j
    simp only [Nat.testBit_and, testBit_one_shiftLeft, Nat.zero_testBit]
    by_cases hj : j = k
    · subst hj; simp [h]
    · simp [hj]
/-! ## Significant-width lemmas -/

theorem sigWidthAux_le (k n : Nat) : sigWidthAux k n ≤ k := by
  induction k with
  | zero => simp [sigWidthAux]
  | succ k ih =>
    simp only [sigWidthAux]
    split
    · exact Nat.le_refl _
    · exact Nat.le_trans ih (Nat.le_succ k)

theorem lt_sigWidthAux_of_testBit {n j k : Nat} (hj : j < k) (h : n.testBit j = true) :
    j < sigWidthAux k n := by
  induction k with
  | zero => omega
  | succ k ih =>
    simp only [sigWidthAux]
    split
    · omega
    · rename_i hk
      rcases Nat.lt_or_ge j k with h2 | h2
      · exact ih h2
      · have hjk : j = k := by omega
        subst hjk
        simp [h] at hk

theorem testBit_false_of_sigWidthAux_le {n j k : Nat} (hn : n < 2 ^ k)
    (h : sigWidthAux k n ≤ j) : n.testBit j = false := by
  rcases Nat.lt_or_ge j k with h2 | h2
  · by_contra hb
    have hb : n.testBit j = true := by simpa using hb
    have := lt_sigWidthAux_of_testBit h2 hb
    omega
  · exact Nat.testBit_lt_two_pow
      (Nat.lt_of_lt_of_le hn (Nat.pow_le_pow_right (by omega) h2))

theorem lt_two_pow_sigWidthAux {n k : Nat} (hn : n < 2 ^ k) :
    n < 2 ^ sigWidthAux k n := by
  apply Nat.lt_pow_two_of_testBit
  intro i hi
  exact testBit_false_of_sigWidthAux_le hn hi

theorem sigWidth_le (n : Nat) : sigWidth n ≤ 64 := sigWidthAux_le 64 n

theorem lt_two_pow_sigWidth {n : Nat} (hn : n < 2 ^ 64) : n < 2 ^ sigWidth n :=
  lt_two_pow_sigWidthAux hn

theorem sub_clz64 (n : Nat) : 64 - clz64 n = sigWidth n := by
  unfold clz64
  have := sigWidth_le n
  omega

/-! ## Characterizations of the masked bit reads -/

theorem getCore_eq (v : Values) (i : Nat) :
    v.getCore i = if v.mask.testBit i then some (v.bits.testBit i) else none := by
  unfold Values.getCore
  cases hm : v.mask.testBit i
  · simp only [if_neg, Bool.false_eq_true, reduceIte]
    rw [if_pos (and_one_shiftLeft_eq_zero.mpr hm)]
  · have hne : ¬v.mask &&& (1 <<< i) = 0 := fun hc => by
      simp [and_one_shiftLeft_eq_zero.mp hc] at hm
    rw [if_neg hne]
    simp only [reduceIte]
    congr 1
    cases hb : v.bits.testBit i
    · simp [and_one_shiftLeft_eq_zero.mpr hb]
    · have hbne : ¬v.bits &&& (1 <<< i) = 0 := fun hc => by
        simp [and_one_shiftLeft_eq_zero.mp hc] at hb
      simpa [bne_iff_ne] using hbne

theorem charAt_eq (v : Values) (i : Nat) :
    v.charAt i =
      if v.mask.testBit i then (if v.bits.testBit i then '1' else '0') else 'x' := by
  unfold Values.charAt
  rw [getCore_eq]
  cases hm : v.mask.testBit i <;> cases hb : v.bits.testBit i <;> simp

theorem charAt_utf8Size (v : Values) (i : Nat) : (v.charAt i).utf8Size = 1 := by
  rw [charAt_eq]
  split
  · split <;> decide
  · decide

/-! ## UTF-8 length lemmas -/

theorem foldl_utf8Size_eq (l : List Char) :
    ∀ n : Nat, (∀ c ∈ l, c.utf8Size = 1) →
      l.foldl (fun n c => n + c.utf8Size) n = n + l.length := by
  induction l with
  | nil => intro n _; simp
  | cons c rest ih =>
    intro n h
    have hc : c.utf8Size = 1 := h c (by simp)
    simp only [List.foldl_cons]
    rw [ih (n + c.utf8Size) (fun d hd => h d (by simp [hd]))]
    simp [hc]
    omega

theorem utf8Len_eq_length {l : List Char} (h : ∀ c ∈ l, c.utf8Size = 1) :
    utf8Len l = l.length := by
  unfold utf8Len
  rw [foldl_utf8Size_eq l 0 h]
  omega

/-- Claim C1: evaluation at the failing input.  The length check `check_len`
accepts 65 offsets because it compares the element count with the BYTE size
(64 times 4 = 256) of the offsets array, and both generation encoders then
panic copying 65 offsets into the 64-entry array instead of returning
`InvalidInput("too many lines")`; only more than 256 offsets produce an
`InvalidInput` error, and its message is "Too many values". -/
theorem C1_check_len_byte_size_bug :
    check_len 65 (64 * 4) = .ok () ∧
    GpioLineRequest.new (List.range 65) .Input .High none none none none "" =
      .error (.panicked "range end index out of range for slice of length 64") ∧
    GpioHandleRequest.new (List.range 65) .Input .High none none "" =
      .error (.panicked "range end index out of range for slice of length 64") ∧
    GpioLineRequest.new (List.range 257) .Input .High none none none none "" =
      .error (invalid_input "Too many values") := by
  refine ⟨rfl, rfl, rfl, rfl⟩

/-- Claim C4: evaluation at the failing input.  `types.rs` `Values::get`
checks `bit > 64` instead of `bit >= 64`, so `get(64)` reaches `1u64 << 64`
and panics with a shift overflow (debug assertions) instead of returning
`None`; bits above 64 do return `None`, and the `values.rs` `Masked` reader
(whose check is `id >= 64`) returns `None` at 64 as the claim demands. -/
theorem C4_get_at_64_panics :
    Values.get ⟨1, 1⟩ 64 = .error (.panicked "attempt to shift left with overflow") ∧
    Values.get ⟨1, 1⟩ 65 = .ok none ∧
    Masked.get ⟨1, 1⟩ 64 = none := by
  refine ⟨rfl, rfl, rfl⟩

/-- Claim C5: evaluation at the failing input.  Building a `Values` from the
empty boolean sequence leaves the loop counter at 64 and the final
`bits >>= i` / `mask >>= i` shift by 64 overflows (a debug-assertion panic)
instead of yielding the empty container; nonempty sequences are unaffected,
e.g. `[true, false]` builds bits 10, mask 11. -/
theorem C5_from_iterator_empty_panics :
    Values.fromIterator [] = .error (.panicked "attempt to shift right with overflow") ∧
    Values.fromIterator [true, false] = .ok ⟨2, 3⟩ := by
  refine ⟨rfl, rfl⟩

/-- Claim C7: evaluation at the failing input.  `Extend<bool> for Values`
decrements its `u32` vacant counter unconditionally, so the first element
beyond the free capacity underflows the counter (a debug-assertion panic;
with overflow checks off the counter wraps to `u32::MAX` and later elements
are shifted in, discarding the oldest bits) instead of being silently
discarded; inputs within the free capacity extend normally. -/
theorem C7_extend_underflows_vacant :
    Values.extend ⟨0, 2 ^ 64 - 1⟩ [true] = .error (.panicked "attempt to subtract with overflow") ∧
    Values.extend ⟨5, 7⟩ [true] = .ok ⟨11, 15⟩ := by
  refine ⟨rfl, rfl⟩
/-! ## Request-flag helper lemmas -/

theorem flags_of_ok_v2 {lines : List Nat} {d : Direction} {a : Active}
    {e : Option EdgeDetect} {b : Option Bias} {dr : Option Drive}
    {vals : Option Values} {c : String} {req : GpioLineRequest}
    (h : GpioLineRequest.new lines d a e b dr vals c = .ok req) :
    req.flags = requestFlagsV2 d a e b dr := by
  unfold GpioLineRequest.new at h
  cases hc : check_len lines.length (64 * 4) with
  | error err =>
    rw [hc] at h
    exact Except.noConfusion h
  | ok u =>
    rw [hc] at h
    cases ho : copy_into_offsets64 lines with
    | error err =>
      rw [ho] at h
      exact Except.noConfusion h
    | ok offs =>
      rw [ho] at h
      cases hs : safe_set_str c 32 with
      | error err =>
        rw [hs] at h
        exact Except.noConfusion h
      | ok cc =>
        rw [hs] at h
        injection h with h2
        subst h2
        rfl

theorem flags_of_ok_v1 {lns : List Nat} {d : Direction} {a : Active}
    {b : Option Bias} {dr : Option Drive} {c : String} {req : GpioHandleRequest}
    (h : GpioHandleRequest.new lns d a b dr c = .ok req) :
    req.flags = requestFlagsV1 d a b dr := by
  unfold GpioHandleRequest.new at h
  cases hc : check_len lns.length (64 * 4) with
  | error err =>
    rw [hc] at h
    exact Except.noConfusion h
  | ok u =>
    rw [hc] at h
    cases ho : copy_into_offsets64 lns with
    | error err =>
      rw [ho] at h
      exact Except.noConfusion h
    | ok offs =>
      rw [ho] at h
      cases hs : safe_set_str c 32 with
      | error err =>
        rw [hs] at h
        exact Except.noConfusion h
      | ok cc =>
        rw [hs] at h
        injection h with h2
        subst h2
        rfl

theorem requestFlagsV2_direction_bits :
    ∀ (d : Direction) (a : Active) (e : Option EdgeDetect) (b : Option Bias)
      (dr : Option Drive),
      (d = .Input → is_set (requestFlagsV2 d a e b dr) GPIO_LINE_FLAG_INPUT = true ∧
                    is_set (requestFlagsV2 d a e b dr) GPIO_LINE_FLAG_OUTPUT = false) ∧
      (d = .Output → is_set (requestFlagsV2 d a e b dr) GPIO_LINE_FLAG_OUTPUT = true ∧
                     is_set (requestFlagsV2 d a e b dr) GPIO_LINE_FLAG_INPUT = false) := by
  decide

/-- Claim C2, counterexample: the generation-2 encoder builds an Output
request whose flags do NOT contain the input flag bit — the source sets the
input XOR the output bit (its comment cites the kernel's rejection of mixed
input/output flags), contradicting the claim that Output sets both. -/
theorem C2_counterexample :
    (GpioLineRequest.new [0] .Output .High none none none none "").map
      (fun r => (is_set r.flags GPIO_LINE_FLAG_INPUT,
                 is_set r.flags GPIO_LINE_FLAG_OUTPUT)) = .ok (false, true) := rfl

/-- Claim C2 (amended): for every generation-2 line request built by the
encoder, the direction flag bits are mutually exclusive — Input sets the
input bit and leaves the output bit clear, Output sets the output bit and
leaves the input bit clear. -/
theorem C2_direction_bits (lines : List Nat) (d : Direction) (a : Active)
    (e : Option EdgeDetect) (b : Option Bias) (dr : Option Drive)
    (vals : Option Values) (c : String) (req : GpioLineRequest)
    (h : GpioLineRequest.new lines d a e b dr vals c = .ok req) :
    (d = .Input → is_set req.flags GPIO_LINE_FLAG_INPUT = true ∧
                  is_set req.flags GPIO_LINE_FLAG_OUTPUT = false) ∧
    (d = .Output → is_set req.flags GPIO_LINE_FLAG_OUTPUT = true ∧
                   is_set req.flags GPIO_LINE_FLAG_INPUT = false) := by
  rw [flags_of_ok_v2 h]
  exact requestFlagsV2_direction_bits d a e b dr

/-- Witness for `C2_direction_bits` at a concrete encoded input request. -/
theorem C2_direction_bits_witness :
    is_set sampleReqV2In.flags GPIO_LINE_FLAG_INPUT = true ∧
    is_set sampleReqV2In.flags GPIO_LINE_FLAG_OUTPUT = false :=
  (C2_direction_bits [1] .Input .High none none none none "" sampleReqV2In (by rfl)).1 rfl

theorem requestFlagsV2_drive_bits :
    ∀ (d : Direction) (a : Active) (e : Option EdgeDetect) (b : Option Bias)
      (dr : Option Drive),
      ((d = .Output ∧ dr = some .PushPull) ∨ d = .Input) →
        requestFlagsV2 d a e b dr &&& GPIO_LINE_FLAG_OPEN_DRAIN = 0 ∧
        requestFlagsV2 d a e b dr &&& GPIO_LINE_FLAG_OPEN_SOURCE = 0 := by
  decide

theorem requestFlagsV1_drive_bits :
    ∀ (d : Direction) (a : Active) (b : Option Bias) (dr : Option Drive),
      ((d = .Output ∧ dr = some .PushPull) ∨ d = .Input) →
        requestFlagsV1 d a b dr &&& GPIOHANDLE_REQUEST_OPEN_DRAIN = 0 ∧
        requestFlagsV1 d a b dr &&& GPIOHANDLE_REQUEST_OPEN_SOURCE = 0 := by
  decide

/-- Claim C9: for every request accepted by either generation encoder, an
Output request with push-pull drive sets neither the open-drain nor the
open-source bit, and an Input request sets neither drive bit regardless of
the drive field. -/
theorem C9_no_drive_bits :
    (∀ (lines : List Nat) (d : Direction) (a : Active) (e : Option EdgeDetect)
       (b : Option Bias) (dr : Option Drive) (vals : Option Values) (c : String)
       (req : GpioLineRequest),
       GpioLineRequest.new lines d a e b dr vals c = .ok req →
       ((d = .Output ∧ dr = some .PushPull) ∨ d = .Input) →
       req.flags &&& GPIO_LINE_FLAG_OPEN_DRAIN = 0 ∧
       req.flags &&& GPIO_LINE_FLAG_OPEN_SOURCE = 0) ∧
    (∀ (lns : List Nat) (d : Direction) (a : Active) (b : Option Bias)
       (dr : Option Drive) (c : String) (req : GpioHandleRequest),
       GpioHandleRequest.new lns d a b dr c = .ok req →
       ((d = .Output ∧ dr = some .PushPull) ∨ d = .Input) →
       req.flags &&& GPIOHANDLE_REQUEST_OPEN_DRAIN = 0 ∧
       req.flags &&& GPIOHANDLE_REQUEST_OPEN_SOURCE = 0) := by
  constructor
  · intro lines d a e b dr vals c req h hcond
    rw [flags_of_ok_v2 h]
    exact requestFlagsV2_drive_bits d a e b dr hcond
  · intro lns d a b dr c req h hcond
    rw [flags_of_ok_v1 h]
    exact requestFlagsV1_drive_bits d a b dr hcond

/-- Witness for `C9_no_drive_bits` at concrete encoded requests of both
generations. -/
theorem C9_no_drive_bits_witness :
    (sampleReqV2Out.flags &&& GPIO_LINE_FLAG_OPEN_DRAIN = 0 ∧
     sampleReqV2Out.flags &&& GPIO_LINE_FLAG_OPEN_SOURCE = 0) ∧
    (sampleReqV1Out.flags &&& GPIOHANDLE_REQUEST_OPEN_DRAIN = 0 ∧
     sampleReqV1Out.flags &&& GPIOHANDLE_REQUEST_OPEN_SOURCE = 0) :=
  ⟨C9_no_drive_bits.1 [2] .Output .High none none (some .PushPull) none ""
      sampleReqV2Out (by rfl) (Or.inl ⟨rfl, rfl⟩),
   C9_no_drive_bits.2 [2] .Output .High none (some .PushPull) ""
      sampleReqV1Out (by rfl) (Or.inl ⟨rfl, rfl⟩)⟩

/-- Claim C8: the line-info flag decoders of both generations are total
functions of the raw flag word.  The bias pair (pull-up, pull-down) decodes
to PullUp for (set, clear), PullDown for (clear, set), and Disable whenever
the two bits agree (both clear, or the invalid both-set state); the drive
pair decodes to PushPull whenever open-drain and open-source agree; and the
generation-1 decoder always yields edge-detect Disable. -/
theorem C8_info_decoding (flags : Nat) :
    ((is_set flags GPIO_LINE_FLAG_BIAS_PULL_UP = true ∧
      is_set flags GPIO_LINE_FLAG_BIAS_PULL_DOWN = false) →
      (as_info_v2 flags).bias = .PullUp) ∧
    ((is_set flags GPIO_LINE_FLAG_BIAS_PULL_UP = false ∧
      is_set flags GPIO_LINE_FLAG_BIAS_PULL_DOWN = true) →
      (as_info_v2 flags).bias = .PullDown) ∧
    (is_set flags GPIO_LINE_FLAG_BIAS_PULL_UP =
       is_set flags GPIO_LINE_FLAG_BIAS_PULL_DOWN →
      (as_info_v2 flags).bias = .Disable) ∧
    (is_set flags GPIO_LINE_FLAG_OPEN_DRAIN =
       is_set flags GPIO_LINE_FLAG_OPEN_SOURCE →
      (as_info_v2 flags).drive = .PushPull) ∧
    ((is_set flags GPIOLINE_FLAG_BIAS_PULL_UP = true ∧
      is_set flags GPIOLINE_FLAG_BIAS_PULL_DOWN = false) →
      (as_info_v1 flags).bias = .PullUp) ∧
    ((is_set flags GPIOLINE_FLAG_BIAS_PULL_UP = false ∧
      is_set flags GPIOLINE_FLAG_BIAS_PULL_DOWN = true) →
      (as_info_v1 flags).bias = .PullDown) ∧
    (is_set flags GPIOLINE_FLAG_BIAS_PULL_UP =
       is_set flags GPIOLINE_FLAG_BIAS_PULL_DOWN →
      (as_info_v1 flags).bias = .Disable) ∧
    (is_set flags GPIOLINE_FLAG_OPEN_DRAIN =
       is_set flags GPIOLINE_FLAG_OPEN_SOURCE →
      (as_info_v1 flags).drive = .PushPull) ∧
    (as_info_v1 flags).edge = .Disable := by
  refine ⟨?_, ?_, ?_, ?_, ?_, ?_, ?_, ?_, rfl⟩
  · rintro ⟨h1, h2⟩
    simp [as_info_v2, h1, h2]
  · rintro ⟨h1, h2⟩
    simp [as_info_v2, h1, h2]
  · intro h
    cases h1 : is_set flags GPIO_LINE_FLAG_BIAS_PULL_UP with
    | false =>
      have h2 : is_set flags GPIO_LINE_FLAG_BIAS_PULL_DOWN = false := by
        rw [← h, h1]
      simp [as_info_v2, h1, h2]
    | true =>
      have h2 : is_set flags GPIO_LINE_FLAG_BIAS_PULL_DOWN = true := by
        rw [← h, h1]
      simp [as_info_v2, h1, h2]
  · intro h
    cases h1 : is_set flags GPIO_LINE_FLAG_OPEN_DRAIN with
    | false =>
      have h2 : is_set flags GPIO_LINE_FLAG_OPEN_SOURCE = false := by
        rw [← h, h1]
      simp [as_info_v2, h1, h2]
    | true =>
      have h2 : is_set flags GPIO_LINE_FLAG_OPEN_SOURCE = true := by
        rw [← h, h1]
      simp [as_info_v2, h1, h2]
  · rintro ⟨h1, h2⟩
    simp [as_info_v1, h1, h2]
  · rintro ⟨h1, h2⟩
    simp [as_info_v1, h1, h2]
  · intro h
    cases h1 : is_set flags GPIOLINE_FLAG_BIAS_PULL_UP with
    | false =>
      have h2 : is_set flags GPIOLINE_FLAG_BIAS_PULL_DOWN = false := by
        rw [← h, h1]
      simp [as_info_v1, h1, h2]
    | true =>
      have h2 : is_set flags GPIOLINE_FLAG_BIAS_PULL_DOWN = true := by
        rw [← h, h1]
      simp [as_info_v1, h1, h2]
  · intro h
    cases h1 : is_set flags GPIOLINE_FLAG_OPEN_DRAIN with
    | false =>
      have h2 : is_set flags GPIOLINE_FLAG_OPEN_SOURCE = false := by
        rw [← h, h1]
      simp [as_info_v1, h1, h2]
    | true =>
      have h2 : is_set flags GPIOLINE_FLAG_OPEN_SOURCE = true := by
        rw [← h, h1]
      simp [as_info_v1, h1, h2]

/-- Witness for `C8_info_decoding`: the invalid both-set bias pair (flag word
768 = pull-up 256 | pull-down 512) decodes to Disable rather than diverging. -/
theorem C8_info_decoding_witness : (as_info_v2 768).bias = .Disable :=
  (C8_info_decoding 768).2.2.1 (by decide)

/-! ## LineMap lemmas -/

theorem foldl_max_init_le (l : List Nat) : ∀ a : Nat, a ≤ l.foldl Nat.max a := by
  induction l with
  | nil => intro a; simp
  | cons x rest ih =>
    intro a
    simp only [List.foldl_cons]
    exact Nat.le_trans (Nat.le_max_left a x) (ih (Nat.max a x))

theorem le_foldl_max {l : List Nat} {x : Nat} (hx : x ∈ l) : ∀ a : Nat, x ≤ l.foldl Nat.max a := by
  induction l with
  | nil => cases hx
  | cons y rest ih =>
    intro a
    simp only [List.foldl_cons]
    rcases List.mem_cons.mp hx with h | h
    · subst h
      exact Nat.le_trans (Nat.le_max_right a x) (foldl_max_init_le rest (Nat.max a x))
    · exact ih h (Nat.max a y)

theorem writeAll_length (lines : List Nat) (idxs : List Nat) :
    ∀ m : List Nat, (writeAll lines m idxs).length = m.length := by
  induction idxs with
  | nil => intro m; rfl
  | cons i rest ih =>
    intro m
    simp only [writeAll]
    rw [ih]
    exact List.length_set m _ _

theorem writeAll_not_written {lines : List Nat} {idxs : List Nat} {o : Nat}
    (h : ∀ i ∈ idxs, lines.getD i 0 ≠ o) :
    ∀ m : List Nat, (writeAll lines m idxs)[o]? = m[o]? := by
  induction idxs with
  | nil => intro m; rfl
  | cons i rest ih =>
    intro m
    simp only [writeAll]
    rw [ih (fun j hj => h j (by simp [hj]))]
    rw [List.getElem?_set]
    rw [if_neg (h i (by simp))]

theorem writeAll_written {lines : List Nat} {idxs : List Nat} {i0 o : Nat}
    (huniq : ∀ i ∈ idxs, lines.getD i 0 = o → i = i0)
    (ho : lines.getD i0 0 = o) :
    ∀ m : List Nat, o < m.length →
      (i0 ∈ idxs ∨ m[o]? = some (i0 % 256)) →
      (writeAll lines m idxs)[o]? = some (i0 % 256) := by
  induction idxs with
  | nil =>
    intro m hlt hbase
    rcases hbase with h | h
    · cases h
    · exact h
  | cons i rest ih =>
    intro m hlt hbase
    simp only [writeAll]
    by_cases hio : lines.getD i 0 = o
    · have hi0 : i = i0 := huniq i (by simp) hio
      subst hi0
      refine ih (fun j hj hjo => huniq j (by simp [hj]) hjo) _
        (by simpa using hlt) (Or.inr ?_)
      rw [List.getElem?_set]
      rw [hio, if_pos rfl, if_pos hlt]
    · have hnext : i0 ∈ rest ∨ (m.set (lines.getD i 0) (i % 256))[o]? = some (i0 % 256) := by
        rcases hbase with hmem | hval
        · rcases List.mem_cons.mp hmem with he | he
          · exact absurd (he ▸ ho) hio
          · exact Or.inl he
        · refine Or.inr ?_
          rw [List.getElem?_set, if_neg hio]
          exact hval
      exact ih (fun j hj hjo => huniq j (by simp [hj]) hjo) _ (by simpa using hlt) hnext

/-- Claim C6, counterexample: for the 65 distinct offsets `0..=64`, the
offset at position 64 does NOT resolve to `Ok(64)` — position 64 collides
with the `NOT_LINE` sentinel (`Values::MAX` = 64 as a `BitId`), so
`get(offsets[64])` is an error. -/
theorem C6_counterexample :
    (List.range 65).Nodup ∧ (List.range 65).getD 64 0 = 64 ∧
    (LineMap.new (List.range 65)).get 64 = .error (invalid_data "Unknown line offset") :=
  ⟨List.nodup_range 65, rfl, rfl⟩

/-- Claim C6 (amended): for every list of at most 64 distinct line offsets
(the only lists a request can produce, since both encoders cap requests at 64
lines), the line map resolves each `offsets[i]` to `Ok(i)`, and any offset
not in the list — in or out of table bounds — resolves to the
`InvalidData("unknown line offset")` error. -/
theorem C6_line_map (lines : List Nat) (hnd : lines.Nodup) (hlen : lines.length ≤ 64) :
    (∀ (i : Nat) (h : i < lines.length),
        (LineMap.new lines).get lines[i] = .ok i) ∧
    (∀ o : Nat, o ∉ lines →
        (LineMap.new lines).get o = .error (invalid_data "Unknown line offset")) := by
  have hmaplen : (LineMap.new lines).map.length = lines.foldl Nat.max 0 + 1 := by
    unfold LineMap.new
    rw [writeAll_length]
    simp
  constructor
  · intro i hi
    have hoff_mem : lines[i] ∈ lines := List.getElem_mem hi
    have hlt : lines[i] < (LineMap.new lines).map.length := by
      rw [hmaplen]
      have := le_foldl_max hoff_mem 0
      omega
    have hval : (LineMap.new lines).map[lines[i]]? = some (i % 256) := by
      unfold LineMap.new
      apply writeAll_written
      · intro j hj hjo
        have hjlt : j < lines.length := List.mem_range.mp hj
        have hg : lines.getD j 0 = lines[j] := by
          simp [List.getD_eq_getElem?_getD, List.getElem?_eq_getElem hjlt]
        rw [hg] at hjo
        exact hnd.getElem_inj_iff.mp hjo
      · simp [List.getD_eq_getElem?_getD, List.getElem?_eq_getElem hi]
      · simp only [List.length_replicate]
        have := le_foldl_max hoff_mem 0
        omega
      · exact Or.inl (List.mem_range.mpr hi)
    have hgetelem : (LineMap.new lines).map[lines[i]] = i % 256 := by
      have h2 := hval
      rw [List.getElem?_eq_getElem hlt] at h2
      exact Option.some.inj h2
    have himod : i % 256 = i := Nat.mod_eq_of_lt (by omega)
    unfold LineMap.get
    rw [dif_pos hlt, hgetelem, himod]
    rw [if_pos (by unfold LineMap.NOT_LINE; omega)]
  · intro o ho
    unfold LineMap.get
    by_cases hlt : o < (LineMap.new lines).map.length
    · rw [dif_pos hlt]
      have hval : (LineMap.new lines).map[o]? =
          (List.replicate (lines.foldl Nat.max 0 + 1) LineMap.NOT_LINE)[o]? := by
        unfold LineMap.new
        apply writeAll_not_written
        intro j hj
        have hjlt := List.mem_range.mp hj
        have hg : lines.getD j 0 = lines[j] := by
          simp [List.getD_eq_getElem?_getD, List.getElem?_eq_getElem hjlt]
        rw [hg]
        intro hcon
        exact ho (hcon ▸ List.getElem_mem hjlt)
      have hlt2 : o < lines.foldl Nat.max 0 + 1 := by
        rw [hmaplen] at hlt
        exact hlt
      have hnl : (LineMap.new lines).map[o] = LineMap.NOT_LINE := by
        have h2 := hval
        rw [List.getElem?_eq_getElem hlt] at h2
        rw [List.getElem?_eq_getElem (by simpa using hlt2)] at h2
        rw [List.getElem_replicate] at h2
        exact Option.some.inj h2
      rw [if_neg (fun hcon => hcon hnl)]
    · rw [dif_neg hlt]

/-- Witness for `C6_line_map` at the concrete offset list `[5, 2, 9]`. -/
theorem C6_line_map_witness :
    (LineMap.new [5, 2, 9]).get 2 = .ok 1 ∧
    (LineMap.new [5, 2, 9]).get 3 = .error (invalid_data "Unknown line offset") := by
  constructor
  · exact (C6_line_map [5, 2, 9] (by decide) (by decide)).1 1 (by decide)
  · exact (C6_line_map [5, 2, 9] (by decide) (by decide)).2 3 (by decide)

/-! ## No-stray-bit (canonical container) lemmas -/

theorem testBit_one (j : Nat) : (1 : Nat).testBit j = decide (0 = j) := by
  have h : (1 : Nat) = 2 ^ 0 := rfl
  rw [h, Nat.testBit_two_pow]

theorem no_stray_or_both {b m p : Nat} (h : b &&& m = b) :
    (b ||| p) &&& (m ||| p) = b ||| p := by
  apply Nat.eq_of_testBit_eq
  intro j
  have hj : (b.testBit j && m.testBit j) = b.testBit j := by
    have := congrArg (fun n => n.testBit j) h
    simpa [Nat.testBit_and] using this
  revert hj
  simp only [Nat.testBit_or, Nat.testBit_and]
  cases b.testBit j <;> cases m.testBit j <;> cases p.testBit j <;> decide

theorem no_stray_or_mask {b m p : Nat} (h : b &&& m = b) :
    b &&& (m ||| p) = b := by
  apply Nat.eq_of_testBit_eq
  intro j
  have hj : (b.testBit j && m.testBit j) = b.testBit j := by
    have := congrArg (fun n => n.testBit j) h
    simpa [Nat.testBit_and] using this
  revert hj
  simp only [Nat.testBit_or, Nat.testBit_and]
  cases b.testBit j <;> cases m.testBit j <;> cases p.testBit j <;> decide

theorem no_stray_and_and {b m p : Nat} (h : b &&& m = b) :
    (b &&& p) &&& (m &&& p) = b &&& p := by
  apply Nat.eq_of_testBit_eq
  intro j
  have hj : (b.testBit j && m.testBit j) = b.testBit j := by
    have := congrArg (fun n => n.testBit j) h
    simpa [Nat.testBit_and] using this
  revert hj
  simp only [Nat.testBit_and]
  cases b.testBit j <;> cases m.testBit j <;> cases p.testBit j <;> decide

theorem no_stray_and_or {b m p q : Nat} (h : b &&& m = b) :
    (b &&& p) &&& (m ||| q) = b &&& p := by
  apply Nat.eq_of_testBit_eq
  intro j
  have hj : (b.testBit j && m.testBit j) = b.testBit j := by
    have := congrArg (fun n => n.testBit j) h
    simpa [Nat.testBit_and] using this
  revert hj
  simp only [Nat.testBit_and, Nat.testBit_or]
  cases b.testBit j <;> cases m.testBit j <;> cases p.testBit j <;>
    cases q.testBit j <;> decide

theorem no_stray_shiftRight {b m : Nat} (k : Nat) (h : b &&& m = b) :
    (b >>> k) &&& (m >>> k) = b >>> k := by
  apply Nat.eq_of_testBit_eq
  intro j
  simp only [Nat.testBit_and, Nat.testBit_shiftRight]
  have := congrArg (fun n => n.testBit (k + j)) h
  simpa [Nat.testBit_and] using this

theorem no_stray_shift_in {b m : Nat} (bb : Bool) (h : b &&& m = b) :
    ((b <<< 1 ||| (if bb then 1 else 0)) % 2 ^ 64) &&&
      ((m <<< 1 ||| 1) % 2 ^ 64) = (b <<< 1 ||| (if bb then 1 else 0)) % 2 ^ 64 := by
  apply Nat.eq_of_testBit_eq
  intro j
  have hc : (if bb then (1 : Nat) else 0).testBit j = (bb && decide (j = 0)) := by
    cases bb
    · simp
    · simp [testBit_one, eq_comm]
  have hj1 : (b.testBit (j - 1) && m.testBit (j - 1)) = b.testBit (j - 1) := by
    have := congrArg (fun n => n.testBit (j - 1)) h
    simpa [Nat.testBit_and] using this
  simp only [Nat.testBit_and, Nat.testBit_or, Nat.testBit_mod_two_pow,
    Nat.testBit_shiftLeft, hc, testBit_one]
  rcases Nat.eq_zero_or_pos j with hj | hj
  · subst hj
    cases bb <;> simp
  · have h1j : (decide (1 ≤ j)) = true := by simpa using hj
    have h0j : (decide (0 = j)) = false := by
      simp
      omega
    have hjd : (decide (j = 0)) = false := by
      simp
      omega
    simp only [h1j, h0j, hjd, Bool.true_and, Bool.and_false, Bool.or_false]
    revert hj1
    cases hlt : decide (j < 64) <;> cases b.testBit (j - 1) <;>
      cases m.testBit (j - 1) <;> decide

theorem parseValuesGo_no_stray {cs : List Char} :
    ∀ (i : Nat) (r v : Values), r.bits &&& r.mask = r.bits →
      parseValuesGo cs i r = .ok v → v.bits &&& v.mask = v.bits := by
  induction cs with
  | nil =>
    intro i r v hr h
    cases h
    exact hr
  | cons c rest ih =>
    intro i r v hr h
    unfold parseValuesGo at h
    split at h
    · exact Except.noConfusion h
    · split at h
      · exact ih _ _ _ (no_stray_or_both hr) h
      · split at h
        · exact ih _ _ _ (no_stray_or_mask hr) h
        · split at h
          · exact ih _ _ _ hr h
          · exact Except.noConfusion h

theorem fromIterGo_no_stray {l : List Bool} :
    ∀ (i : Nat) (v : Values), v.bits &&& v.mask = v.bits →
      (fromIterGo l i v).2.bits &&& (fromIterGo l i v).2.mask = (fromIterGo l i v).2.bits := by
  induction l with
  | nil => intro i v hv; exact hv
  | cons b rest ih =>
    intro i v hv
    cases b
    · simp only [fromIterGo, Bool.false_eq_true, reduceIte]
      split
      · exact no_stray_or_mask hv
      · exact ih _ _ (no_stray_or_mask hv)
    · simp only [fromIterGo, reduceIte]
      split
      · exact no_stray_or_both hv
      · exact ih _ _ (no_stray_or_both hv)

theorem extendGo_no_stray {l : List Bool} :
    ∀ (vac : Nat) (v v2 : Values), v.bits &&& v.mask = v.bits →
      extendGo l vac v = .ok v2 → v2.bits &&& v2.mask = v2.bits := by
  induction l with
  | nil =>
    intro vac v v2 hv h
    cases h
    exact hv
  | cons b rest ih =>
    intro vac v v2 hv h
    by_cases hvac : vac = 0
    · simp only [extendGo, hvac, Nat.lt_irrefl, reduceIte] at h
      exact Except.noConfusion h
    · have hpos : 0 < vac := Nat.pos_of_ne_zero hvac
      simp only [extendGo, if_pos hpos, if_neg hvac] at h
      exact ih _ _ _ (no_stray_shift_in b hv) h

/-- Claim C10: every operation that constructs or mutates a bits/mask
container yields a container with no value bit set outside the mask
(`bits AND mask == bits`): text parsing, building from a boolean iterator and
conversion from an unsigned integer establish the invariant outright, and
`Masked::set` (both `Some` and `None`) and `extend` preserve it. -/
theorem C10_no_stray_bits :
    (∀ (s : String) (v : Values), Values.fromStr s = .ok v →
        v.bits &&& v.mask = v.bits) ∧
    (∀ (l : List Bool) (v : Values), Values.fromIterator l = .ok v →
        v.bits &&& v.mask = v.bits) ∧
    (∀ w n : Nat, n < 2 ^ w →
        (Values.fromUInt w n).bits &&& (Values.fromUInt w n).mask =
          (Values.fromUInt w n).bits) ∧
    (∀ (m : Masked) (id : Nat) (val : Option Bool), m.bits &&& m.mask = m.bits →
        (m.set id val).bits &&& (m.set id val).mask = (m.set id val).bits) ∧
    (∀ (v : Values) (l : List Bool) (v2 : Values), v.bits &&& v.mask = v.bits →
        v.extend l = .ok v2 → v2.bits &&& v2.mask = v2.bits) := by
  refine ⟨?_, ?_, ?_, ?_, ?_⟩
  · intro s v h
    simp only [Values.fromStr] at h
    split at h
    · exact Except.noConfusion h
    · exact parseValuesGo_no_stray _ _ _ (by decide) h
  · intro l v h
    simp only [Values.fromIterator] at h
    split at h
    · split at h
      · exact Except.noConfusion h
      · cases h
        exact no_stray_shiftRight _ (fromIterGo_no_stray 64 ⟨0, 0⟩ (by decide))
    · cases h
      exact fromIterGo_no_stray 64 ⟨0, 0⟩ (by decide)
  · intro w n h
    exact Nat.and_pow_two_sub_one_of_lt_two_pow h
  · intro m id val hm
    unfold Masked.set
    split
    · exact hm
    · cases val with
      | none => exact no_stray_and_and hm
      | some b =>
        cases b
        · exact no_stray_and_or hm
        · exact no_stray_or_both hm
  · intro v l v2 hv h
    exact extendGo_no_stray _ _ _ hv h

/-- Witness for `C10_no_stray_bits` at concrete inputs: a `Masked::set` on a
canonical container and a `u8` conversion. -/
theorem C10_no_stray_bits_witness :
    ((Masked.set ⟨1, 1⟩ 1 (some true)).bits &&& (Masked.set ⟨1, 1⟩ 1 (some true)).mask =
      (Masked.set ⟨1, 1⟩ 1 (some true)).bits) ∧
    ((Values.fromUInt 8 5).bits &&& (Values.fromUInt 8 5).mask =
      (Values.fromUInt 8 5).bits) :=
  ⟨C10_no_stray_bits.2.2.2.1 ⟨1, 1⟩ 1 (some true) rfl,
   C10_no_stray_bits.2.2.1 8 5 (by decide)⟩

/-! ## Round-trip lemmas for `Values` display and parse -/

theorem or_mod_pow_succ_false {x m k : Nat} (h : m.testBit k = false) :
    x ||| (m % 2 ^ k) = x ||| (m % 2 ^ (k + 1)) := by
  apply Nat.eq_of_testBit_eq
  intro j
  simp only [Nat.testBit_or, Nat.testBit_mod_two_pow]
  by_cases hj : j = k
  · subst hj
    simp [h]
  · have hd : (decide (j < k)) = (decide (j < k + 1)) := by
      simp only [decide_eq_decide]
      omega
    rw [hd]

theorem or_mod_pow_succ_true {x m k : Nat} (h : m.testBit k = true) :
    (x ||| (1 <<< k)) ||| (m % 2 ^ k) = x ||| (m % 2 ^ (k + 1)) := by
  apply Nat.eq_of_testBit_eq
  intro j
  simp only [Nat.testBit_or, Nat.testBit_mod_two_pow, testBit_one_shiftLeft]
  by_cases hj : j = k
  · subst hj
    simp [h, Nat.lt_succ_self]
  · have hd : (decide (j < k)) = (decide (j < k + 1)) := by
      simp only [decide_eq_decide]
      omega
    rw [hd]
    simp [hj, Bool.or_assoc]

theorem toList_0b_mk (l : List Char) :
    ("0b" ++ String.mk l).toList = '0' :: 'b' :: l := rfl

theorem utf8Len_render (v : Values) (k : Nat) :
    utf8Len (((List.range k).reverse).map (fun i => v.charAt i)) = k := by
  rw [utf8Len_eq_length]
  · simp
  · intro c hc
    rcases List.mem_map.mp hc with ⟨i, _, rfl⟩
    exact charAt_utf8Size v i

theorem parse_render (v : Values) :
    ∀ (k : Nat) (r : Values),
      parseValuesGo (((List.range k).reverse).map (fun i => v.charAt i)) k r =
        .ok ⟨r.bits ||| ((v.bits &&& v.mask) % 2 ^ k), r.mask ||| (v.mask % 2 ^ k)⟩ := by
  intro k
  induction k with
  | zero =>
    intro r
    simp [parseValuesGo, Nat.mod_one]
  | succ k ih =>
    intro r
    have hlist : ((List.range (k + 1)).reverse).map (fun i => v.charAt i) =
        v.charAt k :: ((List.range k).reverse).map (fun i => v.charAt i) := by
      rw [List.range_succ]
      simp
    rw [hlist]
    simp only [parseValuesGo]
    rw [if_neg (Nat.succ_ne_zero k)]
    simp only [Nat.add_sub_cancel]
    cases hm : v.mask.testBit k with
    | false =>
      have hch : v.charAt k = 'x' := by
        rw [charAt_eq, hm]
        simp
      rw [hch]
      rw [if_neg (by decide), if_neg (by decide), if_pos rfl]
      rw [ih r]
      have hbm : (v.bits &&& v.mask).testBit k = false := by
        simp [Nat.testBit_and, hm]
      rw [or_mod_pow_succ_false hbm, or_mod_pow_succ_false hm]
    | true =>
      cases hb : v.bits.testBit k with
      | true =>
        have hch : v.charAt k = '1' := by
          rw [charAt_eq, hm, hb]
          simp
        rw [hch, if_pos rfl]
        rw [ih ⟨r.bits ||| (1 <<< k), r.mask ||| (1 <<< k)⟩]
        have hbm : (v.bits &&& v.mask).testBit k = true := by
          simp [Nat.testBit_and, hm, hb]
        rw [or_mod_pow_succ_true hbm, or_mod_pow_succ_true hm]
      | false =>
        have hch : v.charAt k = '0' := by
          rw [charAt_eq, hm, hb]
          simp
        rw [hch]
        rw [if_neg (by decide), if_pos rfl]
        rw [ih ⟨r.bits, r.mask ||| (1 <<< k)⟩]
        have hbm : (v.bits &&& v.mask).testBit k = false := by
          simp [Nat.testBit_and, hb]
        rw [or_mod_pow_succ_false hbm, or_mod_pow_succ_true hm]

/-- Claim C3, counterexample: the claim fails on both containers even when
format drops no leading undefined bits.  `values.rs` `Masked` (bits 0b0011,
mask 0b1111, fully defined) formats as "11" — the rendered range comes from
the highest bit of `mask & bits`, not of `mask` — and parses back to mask
0b11.  `types.rs` `Values` (bits 0b010, mask 0b101, nothing set beyond the
significant range) formats the in-range undefined bit 1 as `x`, losing its
set value bit: parsing returns bits 0. -/
theorem C3_counterexample :
    Masked.display ⟨3, 15⟩ = "11" ∧
    Masked.fromStr (Masked.display ⟨3, 15⟩) = .ok ⟨3, 3⟩ ∧
    (⟨3, 3⟩ : Masked) ≠ ⟨3, 15⟩ ∧
    Values.display ⟨2, 5⟩ = "0b0x0" ∧
    Values.fromStr (Values.display ⟨2, 5⟩) = .ok ⟨0, 5⟩ ∧
    (⟨0, 5⟩ : Values) ≠ ⟨2, 5⟩ := by
  refine ⟨rfl, rfl, by decide, rfl, rfl, by decide⟩

/-- Claim C3 (amended): for the `types.rs` `Values` container, parsing the
formatted text yields the container back whenever no value bit is set at a
mask-clear position (anywhere — not only beyond the significant range), and
the rendered text is the `0b` prefix plus exactly
`max(64 - mask.leading_zeros(), 1)` digits, i.e. from the highest set mask
bit down to bit 0 with minimum width 1.  (The `values.rs` `Masked` formatter
instead derives its range from the highest bit of `mask & bits`, so its
round-trip also drops defined leading zeros.) -/
theorem C3_roundtrip (v : Values) (hm : v.mask < 2 ^ 64)
    (hcanon : v.bits &&& v.mask = v.bits) :
    Values.fromStr (Values.display v) = .ok v ∧
    (Values.display v).toList.length = 2 + Nat.max (sigWidth v.mask) 1 := by
  have hMeq : Nat.max (64 - clz64 v.mask) 1 = Nat.max (sigWidth v.mask) 1 := by
    rw [sub_clz64]
  have hM64 : Nat.max (sigWidth v.mask) 1 ≤ 64 :=
    Nat.max_le.mpr ⟨sigWidth_le v.mask, by omega⟩
  have hmask_lt : v.mask < 2 ^ Nat.max (sigWidth v.mask) 1 :=
    Nat.lt_of_lt_of_le (lt_two_pow_sigWidth hm)
      (Nat.pow_le_pow_right (by omega) (Nat.le_max_left _ _))
  have hbits_lt : v.bits < 2 ^ Nat.max (sigWidth v.mask) 1 := by
    rw [← hcanon]
    exact Nat.lt_of_le_of_lt Nat.and_le_right hmask_lt
  have hdisp : Values.display v =
      "0b" ++ String.mk (((List.range (Nat.max (sigWidth v.mask) 1)).reverse).map
        (fun i => v.charAt i)) := by
    simp only [Values.display]
    rw [hMeq]
  have hrender := parse_render v (Nat.max (sigWidth v.mask) 1) ⟨0, 0⟩
  have hbm : (v.bits &&& v.mask) % 2 ^ Nat.max (sigWidth v.mask) 1 = v.bits := by
    rw [hcanon]
    exact Nat.mod_eq_of_lt hbits_lt
  have hmm : v.mask % 2 ^ Nat.max (sigWidth v.mask) 1 = v.mask :=
    Nat.mod_eq_of_lt hmask_lt
  rw [hbm, hmm] at hrender
  simp only [Nat.zero_or] at hrender
  constructor
  · rw [hdisp]
    simp only [Values.fromStr]
    rw [toList_0b_mk]
    show (if 64 < utf8Len (strip0b ('0' :: 'b' ::
        ((List.range (Nat.max (sigWidth v.mask) 1)).reverse).map (fun i => v.charAt i)))
      then _ else _) = _
    rw [show (strip0b ('0' :: 'b' ::
        ((List.range (Nat.max (sigWidth v.mask) 1)).reverse).map (fun i => v.charAt i))) =
        ((List.range (Nat.max (sigWidth v.mask) 1)).reverse).map (fun i => v.charAt i)
      from rfl]
    rw [utf8Len_render v (Nat.max (sigWidth v.mask) 1)]
    rw [if_neg (Nat.not_lt.mpr hM64)]
    exact hrender
  · rw [hdisp, toList_0b_mk]
    simp
    omega

/-- Witness for `C3_roundtrip` at the canonical container bits 0b101, mask
0b111. -/
theorem C3_roundtrip_witness :
    Values.fromStr (Values.display ⟨5, 7⟩) = .ok ⟨5, 7⟩ :=
  (C3_roundtrip ⟨5, 7⟩ (by decide) (by decide)).1
